import Mathlib

/-!
# DiscoBot music-queue controller: shallow embedding and verification

Shallow embedding of the playback state machine of the DiscoBot repository
(`bot.py`, `tools.py`, `helper.py`).  Pure data and queue arbitration logic are
translated directly from the Python source; external effects (the Discord voice
connection, yt-dlp resolution, the filesystem scan, the metadata cache) are
parameterised by an explicit environment `ExtEnv` recording the outcome each
external call would produce during one invocation.

The `Ctx` type parameter stands for the opaque `discord.ext.commands.Context`
objects threaded through song dictionaries (`'ctx'` keys); a Python dictionary
without a `'ctx'` key, or with it set to `None`, is modelled as `ctx = none`
(the source only ever reads this key via `.get`, for which the two cases
coincide on every code path modelled here).
-/

namespace DiscoBot

/-- Song dictionary as built throughout `bot.py`
(`{'path': ..., 'title': ..., 'is_stream': ..., 'ctx': ...}`).
Identity is by `path`. -/
structure Song (Ctx : Type) where
  path : String
  title : String
  is_stream : Bool
  ctx : Option Ctx
  deriving DecidableEq

/-- The music-relevant fields of `tools.BotState`.  Locks are serialization
artifacts of the Python runtime and have no content in the sequential
embedding; `analytics` is opaque to every claim and modelled as `Unit`.
Python's `disabled_users` set is modelled as its list of elements. -/
structure BotState (Ctx : Type) where
  music_enabled : Bool
  all_songs : List String
  shuffle_queue : List String
  search_queue : List (Song Ctx)
  active_playlist : List (Song Ctx)
  current_song : Option (Song Ctx)
  is_music_playing : Bool
  is_music_paused : Bool
  is_processing_song : Bool
  music_mode : String
  music_volume : Rat
  playlists : List (String × List (Song Ctx))
  disabled_users : List Nat
  analytics : Unit
  announcement_context : Option Ctx
  play_next_override : Bool
  stop_after_clear : Bool
  deriving DecidableEq

/-- Cached tag metadata for one file, as stored in `MUSIC_METADATA_CACHE`
(only the fields read by `get_display_title_from_path`).  Python falsy empty
strings model missing tags. -/
structure SongMeta where
  raw_title : String
  raw_artist : String
  deriving DecidableEq

/-- Outcomes of the external collaborators during one invocation of the
arbiter: voice connection attempts, `_play_song`'s own connection check,
whether the `try` block of `_play_song` raises, the title yt-dlp resolves for
a stream, the library scan result (`scanShuffled` stands for the
`random.shuffle`d copy of `scanFound`), the metadata cache and
`os.path.basename`. -/
structure ExtEnv where
  connOk : Bool
  playConnOk : Bool
  playRaises : Bool
  resolvedTitle : Option String
  locationValid : Bool
  scanFound : List String
  scanShuffled : List String
  metaCache : String → Option SongMeta
  basename : String → String

variable {Ctx : Type}

/-- Embeds `bot.get_display_title_from_path`: metadata title/artist when cached and
non-empty, else the basename of the path. -/
def get_display_title_from_path (env : ExtEnv) (song_path : String) : String :=
  match env.metaCache song_path with
  | some m =>
    if m.raw_title ≠ "" ∧ m.raw_artist ≠ "" then m.raw_title ++ " - " ++ m.raw_artist
    else if m.raw_title ≠ "" then m.raw_title
    else env.basename song_path
  | none => env.basename song_path

/-- Insertion step of the sort below. -/
def insertSorted (x : String) : List String → List String
  | [] => [x]
  | y :: ys => if x ≤ y then x :: y :: ys else y :: insertSorted x ys

/-- Ascending insertion sort on strings, modelling Python's `sorted`. -/
def sortStrings : List String → List String
  | [] => []
  | x :: xs => insertSorted x (sortStrings xs)

/-- Embeds `bot.scan_and_shuffle_music`: no-op when music is disabled or
`MUSIC_LOCATION` is unset/invalid; otherwise replaces `all_songs` with the
sorted scan result and `shuffle_queue` with the shuffled copy. -/
def scan_and_shuffle_music (env : ExtEnv) (st : BotState Ctx) : BotState Ctx :=
  if ¬st.music_enabled then st
  else if ¬env.locationValid then st
  else {st with all_songs := sortStrings env.scanFound,
                shuffle_queue := env.scanShuffled}

/-- Outcome of the selection block of `play_next_song`
(`bot.py`, the `async with state.music_lock:` block at lines 408-436). -/
inductive SelectOutcome (Ctx : Type) where
  | noCtx
  | chosen (song : Song Ctx)
  | scanNeeded
  | noSong
  deriving DecidableEq

/-- Note `alphaNextIndex` is not a named Python function: it is the index
computation of the `alphabetical` branch of `play_next_song`
(lines 432-434): `(all_songs.index(last_path) + 1) % len(all_songs)`, with
`ValueError`/`AttributeError` (no current song, or its path absent) mapped
to index 0. -/
def alphaNextIndex (st : BotState Ctx) : Nat :=
  match st.current_song with
  | none => 0
  | some cs =>
    match st.all_songs.findIdx? (· == cs.path) with
    | some i => (i + 1) % st.all_songs.length
    | none => 0

/-- The queue-arbitration chain of `play_next_song` after the loop branch has
been ruled out (lines 421-436): search queue front, then active playlist
front, then the shuffle pool, then alphabetical traversal. -/
def selectFromQueues (env : ExtEnv) (eff : Ctx) (st : BotState Ctx) :
    SelectOutcome Ctx × BotState Ctx :=
  match st.search_queue with
  | s :: rest => (.chosen s, {st with search_queue := rest})
  | [] =>
    match st.active_playlist with
    | s :: rest => (.chosen s, {st with active_playlist := rest})
    | [] =>
      if st.music_mode = "shuffle" then
        match st.shuffle_queue with
        | [] => (.scanNeeded, st)
        | p :: rest =>
          (.chosen ⟨p, get_display_title_from_path env p, false, some eff⟩,
           {st with shuffle_queue := rest})
      else if st.music_mode = "alphabetical" then
        if st.all_songs.isEmpty then (.scanNeeded, st)
        else
          let p := st.all_songs.getD (alphaNextIndex st) ""
          (.chosen ⟨p, get_display_title_from_path env p, false, some eff⟩, st)
      else (.noSong, st)

/-- The selection block of `play_next_song` (lines 408-436): resolve the
effective context (front of `search_queue`, else front of `active_playlist`,
else the passed `ctx`); bail out resetting `is_music_playing`/`current_song`
when none is available; replay `current_song` in loop mode; otherwise
arbitrate the queues. -/
def selectNextSong (env : ExtEnv) (ctx : Option Ctx) (st : BotState Ctx) :
    SelectOutcome Ctx × BotState Ctx :=
  let songCtx : Option Ctx :=
    match st.search_queue, st.active_playlist with
    | s :: _, _ => s.ctx
    | [], s :: _ => s.ctx
    | [], [] => none
  match songCtx.orElse (fun _ => ctx) with
  | none => (.noCtx, {st with is_music_playing := false, current_song := none})
  | some eff =>
    match st.current_song with
    | some cs =>
      if st.music_mode = "loop" then (.chosen cs, st)
      else selectFromQueues env eff st
    | none => selectFromQueues env eff st

/-- Embeds `bot._play_song`: sets the in-flight guard, then either fails early
(music disabled, or voice connection lost: playing flag and current song
cleared), or the `try` block raises (source resolution / playback error:
playing flag cleared, current song kept), or playback starts (for a stream the
current song's title is updated to the resolved one, and the pending
announcement context is consumed).  The returned `Bool` records whether
`voice_client.play` was reached. -/
def play_song (env : ExtEnv) (song_info : Song Ctx) (st : BotState Ctx) :
    BotState Ctx × Bool :=
  let st1 := {st with is_processing_song := true}
  if ¬st1.music_enabled then
    ({st1 with is_music_playing := false, current_song := none,
               is_processing_song := false}, false)
  else if ¬env.playConnOk then
    ({st1 with is_music_playing := false, current_song := none,
               is_processing_song := false}, false)
  else if env.playRaises then
    ({st1 with is_music_playing := false, is_processing_song := false}, false)
  else
    let st2 :=
      if song_info.is_stream then
        match st1.current_song with
        | some cs =>
          let cs1 := {cs with title := env.resolvedTitle.getD song_info.title}
          {st1 with current_song := some cs1}
        | none => st1
      else st1
    ({st2 with announcement_context := none}, true)

/-- One pass of `play_next_song` up to (but not including) the scan-and-retry
step: either it finishes with a final state, or it requests a library scan. -/
inductive CoreOut (Ctx : Type) where
  | done (st : BotState Ctx) (startedPlayback : Bool)
  | needScan (st : BotState Ctx)

/-- One pass of `bot.play_next_song` (lines 385-459 minus the scan recursion):
the `music_enabled` gate, resetting the in-flight guard, the
`stop_after_clear` short-circuit, the voice-connection check when a context is
passed, then selection and the hand-off to `_play_song` (or the transition to
idle when nothing was selected, or the halt when the chosen song has no
context at all). -/
def playNextSongCore (env : ExtEnv) (ctx : Option Ctx) (st : BotState Ctx) :
    CoreOut Ctx :=
  if ¬st.music_enabled then .done st false
  else
    let st0 := {st with is_processing_song := false}
    if st0.stop_after_clear then
      .done {st0 with stop_after_clear := false, is_music_playing := false,
                      is_music_paused := false, current_song := none} false
    else if ctx.isSome ∧ ¬env.connOk then
      .done {st0 with is_music_playing := false, current_song := none} false
    else
      match selectNextSong env ctx st0 with
      | (.noCtx, st1) => .done st1 false
      | (.scanNeeded, st1) => .needScan st1
      | (.noSong, st1) =>
        .done {st1 with is_music_playing := false, is_music_paused := false,
                        current_song := none} false
      | (.chosen song, st1) =>
        match song.ctx.orElse (fun _ => ctx) with
        | none => .done st1 false
        | some _ =>
          let st2 := {st1 with is_music_playing := true,
                               is_music_paused := false,
                               current_song := some song}
          let r := play_song env song st2
          .done r.1 r.2

/-- The state carried by either constructor of `CoreOut` (proof convenience,
not source code). -/
def coreState : CoreOut Ctx → BotState Ctx
  | .done st _ => st
  | .needScan st => st

/-- Result of a full invocation of `play_next_song`: the final state, how many
times `scan_and_shuffle_music` ran, and whether playback was started. -/
structure RunResult (Ctx : Type) where
  state : BotState Ctx
  scans : Nat
  startedPlayback : Bool
  deriving DecidableEq

/-- Embeds `bot.play_next_song` including the scan recursion: when the first pass
requests a scan, `scan_and_shuffle_music` runs once and the pass is re-entered
with `is_recursive_call=True`; a second scan request halts ("Recursive call to
play_next_song detected after failed scan") with the state as it stands. -/
def play_next_song (env : ExtEnv) (ctx : Option Ctx) (st : BotState Ctx) :
    RunResult Ctx :=
  match playNextSongCore env ctx st with
  | .done st1 started => ⟨st1, 0, started⟩
  | .needScan st1 =>
    let st2 := scan_and_shuffle_music env st1
    match playNextSongCore env ctx st2 with
    | .done st3 started => ⟨st3, 1, started⟩
    | .needScan st3 => ⟨st3, 1, false⟩

/-- Embeds `bot.mskip` (lines 650-665).  `vcPlayingOrPaused` is
`voice_client_music.is_playing() or voice_client_music.is_paused()` (false
also covers a missing voice client); `connOk` is the
`ensure_voice_connection` outcome.  The returned `Bool` records whether
`voice_client_music.stop()` was called, which triggers re-selection through
the player's after-callback. -/
def mskip (vcPlayingOrPaused connOk : Bool) (c : Ctx) (st : BotState Ctx) :
    BotState Ctx × Bool :=
  if ¬st.music_enabled then (st, false)
  else if ¬vcPlayingOrPaused then (st, false)
  else if ¬connOk then (st, false)
  else
    ({st with
        music_mode := if st.music_mode = "loop" then "shuffle" else st.music_mode,
        is_music_paused := false,
        announcement_context := some c}, true)

/-- Embeds `bot.global_mskip` (lines 178-188), the hotkey variant: same demotion of
loop mode and stop call, without touching the announcement context. -/
def global_mskip (vcPlayingOrPaused : Bool) (st : BotState Ctx) :
    BotState Ctx × Bool :=
  if ¬st.music_enabled ∨ ¬vcPlayingOrPaused then (st, false)
  else
    ({st with
        music_mode := if st.music_mode = "loop" then "shuffle" else st.music_mode,
        is_music_paused := false}, true)

/-- Embeds `bot.on_voice_state_update` (lines 544-565).  `memberIsForeignBot` is
`member.bot and member.id != bot.user.id`; `connected` whether the music
voice client exists and is connected; `humanListeners` the number of non-bot
members remaining in the bot's channel. -/
def on_voice_state_update (memberIsForeignBot connected : Bool)
    (humanListeners : Nat) (st : BotState Ctx) : BotState Ctx :=
  if memberIsForeignBot then st
  else if ¬connected then st
  else if humanListeners = 0 then
    {st with is_music_playing := false, is_music_paused := false,
             current_song := none, search_queue := [], active_playlist := []}
  else st

/-- Embeds `bot.is_song_in_queue` (lines 623-628): the path matches the current song
or some song of the active playlist or search queue. -/
def is_song_in_queue (st : BotState Ctx) (song_path_or_url : String) : Bool :=
  (match st.current_song with
   | some cs => cs.path == song_path_or_url
   | none => false)
  || (st.active_playlist ++ st.search_queue).any (fun s => s.path == song_path_or_url)

/-- The `existing_paths` set built by the bulk-add paths of `msearch` and by
`playlist_load`: the paths of the active playlist and the search queue, plus
the current song's path when one is set (modelled as a list; only membership
is ever used). -/
def existing_paths (st : BotState Ctx) : List String :=
  (st.active_playlist ++ st.search_queue).map Song.path
  ++ (match st.current_song with | some cs => [cs.path] | none => [])

/-- The duplicate-suppressing accumulation loop shared by the bulk-add branch
of `msearch` (lines 838-844) and `playlist_load` (lines 1075-1083): a song
is queued when its path is truthy and not yet in the running set, which then
grows by that path; otherwise it is counted as skipped.  Returns the list of
newly queued songs and the skipped count. -/
def dedupFilter (existing : List String) :
    List (Song Ctx) → List (Song Ctx) × Nat
  | [] => ([], 0)
  | song :: rest =>
    if song.path ≠ "" ∧ song.path ∉ existing then
      let r := dedupFilter (song.path :: existing) rest
      (song :: r.1, r.2)
    else
      let r := dedupFilter existing rest
      (r.1, r.2 + 1)

/-- Result of a queue-extending command: new state, number of songs added,
number of duplicates skipped. -/
structure AddOutcome (Ctx : Type) where
  state : BotState Ctx
  added : Nat
  skipped : Nat

/-- The URL/playlist bulk-add branch of `bot.msearch` (lines 832-848): filter
the hits against `existing_paths`, then extend the search queue with the
survivors. -/
def msearch_bulk_add (st : BotState Ctx) (all_hits : List (Song Ctx)) :
    AddOutcome Ctx :=
  let r := dedupFilter (existing_paths st) all_hits
  ⟨{st with search_queue := st.search_queue ++ r.1}, r.1.length, r.2⟩

/-- The single-result add of `msearch`'s dropdown callback (lines 986-993):
reject when `is_song_in_queue`, else append to the search queue.  The `Bool`
records whether the song was added. -/
def msearch_single_add (st : BotState Ctx) (selected_song : Song Ctx) :
    BotState Ctx × Bool :=
  if is_song_in_queue st selected_song.path then (st, false)
  else ({st with search_queue := st.search_queue ++ [selected_song]}, true)

/-- Association-list lookup modelling `state.playlists[name]`. -/
def lookupPlaylist : List (String × List (Song Ctx)) → String →
    Option (List (Song Ctx))
  | [], _ => none
  | (n, songs) :: rest, name =>
    if n = name then some songs else lookupPlaylist rest name

/-- Embeds `bot.playlist_load` (lines 1062-1090), state part: look the (lowercased)
name up, attach the invoking context to a copy of each stored song, filter
against `existing_paths`, extend the search queue. -/
def playlist_load (st : BotState Ctx) (name : String) (c : Ctx) :
    AddOutcome Ctx :=
  match lookupPlaylist st.playlists name with
  | none => ⟨st, 0, 0⟩
  | some songs_to_load =>
    let withCtx := songs_to_load.map (fun s => {s with ctx := some c})
    let r := dedupFilter (existing_paths st) withCtx
    ⟨{st with search_queue := st.search_queue ++ r.1}, r.1.length, r.2⟩

/-- The confirmed branch of `helper.BotHelper.confirm_and_clear_music_queue`
(lines 192-197): clear both queues; when something was playing or paused, set
`stop_after_clear` and stop the voice client (returned `Bool`). -/
def confirm_and_clear_music_queue (vcPlayingOrPaused : Bool)
    (st : BotState Ctx) : BotState Ctx × Bool :=
  if vcPlayingOrPaused then
    ({st with search_queue := [], active_playlist := [],
              stop_after_clear := true}, true)
  else ({st with search_queue := [], active_playlist := []}, false)

/-- Embeds the `clean_song_dict` helper of `tools.BotState.to_dict`: drop the `'ctx'` key. -/
def clean_song_dict (s : Song Ctx) : Song Ctx := {s with ctx := none}

/-- The dictionary produced by `tools.BotState.to_dict` (its keys, in order).
Song entries keep the `Song` shape; an absent `'ctx'` key is `ctx = none`. -/
structure SavedState (Ctx : Type) where
  analytics : Unit
  disabled_users : List Nat
  music_enabled : Bool
  music_mode : String
  search_queue : List (Song Ctx)
  active_playlist : List (Song Ctx)
  current_song : Option (Song Ctx)
  music_volume : Rat
  playlists : List (String × List (Song Ctx))
  deriving DecidableEq

/-- Embeds `tools.BotState.to_dict` (lines 161-178): `search_queue`,
`active_playlist` and `current_song` are serialized through
`clean_song_dict`; `playlists` is serialized as stored. -/
def to_dict (st : BotState Ctx) : SavedState Ctx :=
  ⟨st.analytics, st.disabled_users, st.music_enabled, st.music_mode,
   st.search_queue.map clean_song_dict,
   st.active_playlist.map clean_song_dict,
   st.current_song.map clean_song_dict,
   st.music_volume, st.playlists⟩

/-- The configuration fields consulted by `BotState.__post_init__` and
`BotState.from_dict`. -/
structure ConfigModel where
  MUSIC_ENABLED : Bool
  MUSIC_BOT_VOLUME : Rat
  deriving DecidableEq

/-- A fresh `BotState(config=cfg)` as produced by the dataclass defaults plus
`__post_init__`. -/
def initialBotState (cfg : ConfigModel) : BotState Ctx where
  music_enabled := cfg.MUSIC_ENABLED
  all_songs := []
  shuffle_queue := []
  search_queue := []
  active_playlist := []
  current_song := none
  is_music_playing := false
  is_music_paused := false
  is_processing_song := false
  music_mode := "shuffle"
  music_volume := cfg.MUSIC_BOT_VOLUME
  playlists := []
  disabled_users := []
  analytics := ()
  announcement_context := none
  play_next_override := false
  stop_after_clear := false

/-- Embeds `tools.BotState.from_dict` (lines 180-197): start from a fresh state and
overwrite the persisted fields from the dictionary (every key is present in a
dictionary produced by `to_dict`, so the `.get` defaults are not taken). -/
def from_dict (data : SavedState Ctx) (cfg : ConfigModel) : BotState Ctx :=
  {initialBotState cfg with
     analytics := data.analytics,
     disabled_users := data.disabled_users,
     music_enabled := data.music_enabled,
     music_mode := data.music_mode,
     search_queue := data.search_queue,
     active_playlist := data.active_playlist,
     current_song := data.current_song,
     music_volume := data.music_volume,
     playlists := data.playlists}

/-! ## Invariants and helper predicates -/

/-- Paths of the combined search queue and active playlist. -/
def combinedPaths (st : BotState Ctx) : List String :=
  (st.search_queue ++ st.active_playlist).map Song.path

/-- The duplicate-freedom invariant of C4: the combined queues hold no two
entries with the same path, and no entry whose path is the current song's. -/
def QueuesConsistent (st : BotState Ctx) : Prop :=
  (combinedPaths st).Nodup ∧
  ∀ cs, st.current_song = some cs → cs.path ∉ combinedPaths st

/-- At most one of `is_music_playing`/`is_music_paused` is true. -/
def PlayPauseExclusive (st : BotState Ctx) : Prop :=
  st.is_music_playing = false ∨ st.is_music_paused = false

/-- Full playing/paused/current-song consistency as claimed by C2. -/
def FullConsistency (st : BotState Ctx) : Prop :=
  PlayPauseExclusive st
  ∧ (st.current_song = none →
      st.is_music_playing = false ∧ st.is_music_paused = false)
  ∧ (st.music_mode ≠ "loop" → st.current_song ≠ none →
      (st.is_music_playing = true ∨ st.is_music_paused = true))

/-- The idle state of the claims: nothing playing, nothing paused, no current
song. -/
def IsIdle (st : BotState Ctx) : Prop :=
  st.is_music_playing = false ∧ st.is_music_paused = false ∧
  st.current_song = none

/-- All songs in the queue positions that `to_dict` cleans (search queue,
active playlist, current song) carry no context. -/
def QueuedCtxFree (st : BotState Ctx) : Prop :=
  (∀ s ∈ st.search_queue, s.ctx = none)
  ∧ (∀ s ∈ st.active_playlist, s.ctx = none)
  ∧ (∀ s, st.current_song = some s → s.ctx = none)

/-- Every song dictionary appearing anywhere in a serialized state. -/
def savedSongs (d : SavedState Ctx) : List (Song Ctx) :=
  d.search_queue ++ d.active_playlist
  ++ (match d.current_song with | some s => [s] | none => [])
  ++ (d.playlists.map Prod.snd).flatten

/-! ## Concrete objects for witnesses and counterexamples -/

/-- A configuration with music enabled and default volume 0.2
(`MUSIC_BOT_VOLUME`). -/
def cfgW : ConfigModel := ⟨true, 1/5⟩

/-- Concrete external world in which every collaborator call succeeds and the
library scan finds nothing. -/
def envOk : ExtEnv where
  connOk := true
  playConnOk := true
  playRaises := false
  resolvedTitle := none
  locationValid := true
  scanFound := []
  scanShuffled := []
  metaCache := fun _ => none
  basename := fun p => p

/-- Like `envOk` but the `try` block of `_play_song` raises (e.g. yt-dlp
yields no playable URL, or FFmpeg fails). -/
def envRaise : ExtEnv := {envOk with playRaises := true}

/-- A stream song carrying an origin context. -/
def songA : Song Unit := ⟨"a", "a", false, some ()⟩

/-- A local-library song with no context, with the path of the third entry of
the concrete alphabetical library below. -/
def songC : Song Unit := ⟨"c", "c", false, none⟩

/-- A fresh state under `cfgW`: shuffle mode, everything empty. -/
def baseState : BotState Unit := initialBotState cfgW

/-- Concrete state for the alphabetical-wrap instance: sorted library
`[a, b, c]`, the current song is `c`. -/
def stABC : BotState Unit :=
  {baseState with music_mode := "alphabetical",
                  all_songs := ["a", "b", "c"], current_song := some songC}

/-- A populated context-free state for the round-trip witness. -/
def stRound : BotState Unit :=
  {baseState with search_queue := [songC], playlists := [("p", [songC])]}

/-- A state whose queues are context-free but whose saved playlist holds a
song carrying a context. -/
def stLeak : BotState Unit :=
  {baseState with playlists := [("p", [songA])]}

/-! ## Helper lemmas -/

theorem orElse_some_ne_none {α : Type} (o : Option α) (c : α) :
    o.orElse (fun _ => some c) ≠ none := by
  cases o <;> simp [Option.orElse]

theorem play_song_frame (env : ExtEnv) (song : Song Ctx) (t : BotState Ctx) :
    (play_song env song t).1.search_queue = t.search_queue
    ∧ (play_song env song t).1.active_playlist = t.active_playlist
    ∧ (play_song env song t).1.shuffle_queue = t.shuffle_queue
    ∧ (play_song env song t).1.all_songs = t.all_songs := by
  unfold play_song
  cases hme : t.music_enabled <;> cases hco : env.playConnOk <;>
    cases hpr : env.playRaises <;> cases hstr : song.is_stream <;>
    cases hcs : t.current_song <;> simp [hme, hco, hpr, hstr, hcs]

theorem play_song_exclusive (env : ExtEnv) (song : Song Ctx)
    (t : BotState Ctx) (h : PlayPauseExclusive t) :
    PlayPauseExclusive (play_song env song t).1 := by
  unfold play_song
  unfold PlayPauseExclusive at h ⊢
  cases hme : t.music_enabled <;> cases hco : env.playConnOk <;>
    cases hpr : env.playRaises <;> cases hstr : song.is_stream <;>
    cases hcs : t.current_song <;> simp_all

/-- C6: invoking skip while the mode is `loop` and something is playing or
paused switches the mode to `shuffle` (so it is no longer `loop`) and stops
the current source, forcing re-selection through the after-callback; both the
`!mskip` command and the global hotkey variant behave this way. -/
theorem skip_demotes_loop (st : BotState Ctx) (c : Ctx)
    (hEn : st.music_enabled = true) (hMode : st.music_mode = "loop") :
    ((mskip true true c st).1.music_mode = "shuffle"
      ∧ (mskip true true c st).1.music_mode ≠ "loop"
      ∧ (mskip true true c st).2 = true)
    ∧ ((global_mskip true st).1.music_mode = "shuffle"
      ∧ (global_mskip true st).1.music_mode ≠ "loop"
      ∧ (global_mskip true st).2 = true) := by
  simp [mskip, global_mskip, hEn, hMode]

/-- Witness for `skip_demotes_loop` at a concrete looping state. -/
theorem skip_demotes_loop_witness :
    ((mskip true true () {baseState with music_mode := "loop"}).1.music_mode
        = "shuffle"
      ∧ (mskip true true () {baseState with music_mode := "loop"}).1.music_mode
        ≠ "loop"
      ∧ (mskip true true () {baseState with music_mode := "loop"}).2 = true)
    ∧ ((global_mskip true {baseState with music_mode := "loop"}).1.music_mode
        = "shuffle"
      ∧ (global_mskip true {baseState with music_mode := "loop"}).1.music_mode
        ≠ "loop"
      ∧ (global_mskip true {baseState with music_mode := "loop"}).2 = true) :=
  skip_demotes_loop {baseState with music_mode := "loop"} () rfl rfl

/-- C10: when the bot's voice channel loses its last non-bot member, the
voice-state handler clears the search queue and active playlist and resets
the playing/paused/current-song fields to idle, while leaving the shuffle
pool, the full library, the saved playlists, the music mode and the volume
unchanged. -/
theorem voice_empty_cleanup (st : BotState Ctx) :
    (on_voice_state_update false true 0 st).search_queue = []
    ∧ (on_voice_state_update false true 0 st).active_playlist = []
    ∧ (on_voice_state_update false true 0 st).is_music_playing = false
    ∧ (on_voice_state_update false true 0 st).is_music_paused = false
    ∧ (on_voice_state_update false true 0 st).current_song = none
    ∧ (on_voice_state_update false true 0 st).shuffle_queue = st.shuffle_queue
    ∧ (on_voice_state_update false true 0 st).all_songs = st.all_songs
    ∧ (on_voice_state_update false true 0 st).playlists = st.playlists
    ∧ (on_voice_state_update false true 0 st).music_mode = st.music_mode
    ∧ (on_voice_state_update false true 0 st).music_volume = st.music_volume := by
  simp [on_voice_state_update]

theorem select_pops_front (env : ExtEnv) (ctx : Option Ctx)
    (st : BotState Ctx) (s : Song Ctx) (rest : List (Song Ctx))
    (hq : st.search_queue = s :: rest)
    (hctx : (s.ctx.orElse (fun _ => ctx)).isSome = true)
    (hmode : st.music_mode ≠ "loop" ∨ st.current_song = none) :
    selectNextSong env ctx st = (.chosen s, {st with search_queue := rest}) := by
  obtain ⟨eff, heff⟩ := Option.isSome_iff_exists.mp hctx
  unfold selectNextSong
  rw [hq]
  simp only
  rw [heff]
  rcases hmode with hmode | hmode
  · cases hcs : st.current_song <;>
      simp [selectFromQueues, hq, hmode, hcs]
  · simp [selectFromQueues, hq, hmode]

/-- C7: in loop mode with a current song `S`, the selection block of
`play_next_song` re-selects `S` and leaves the whole state unchanged (nothing
is removed from the search queue, the active playlist or the shuffle pool);
consequently any number of repeated selections without an intervening skip,
clear or mode change still selects `S`. -/
theorem loop_stability (env : ExtEnv) (st : BotState Ctx) (c : Ctx)
    (S : Song Ctx) (hMode : st.music_mode = "loop")
    (hCur : st.current_song = some S) :
    selectNextSong env (some c) st = (.chosen S, st)
    ∧ ∀ n : Nat, (fun t => (selectNextSong env (some c) t).2)^[n] st = st := by
  have hsel : selectNextSong env (some c) st = (.chosen S, st) := by
    unfold selectNextSong
    simp only
    split
    · next heq => exact absurd heq (orElse_some_ne_none _ c)
    · rw [hCur]
      simp [hMode]
  refine ⟨hsel, ?_⟩
  intro n
  induction n with
  | zero => rfl
  | succ n ih =>
    rw [Function.iterate_succ_apply', ih, hsel]

theorem play_next_pops_front (env : ExtEnv) (ctx : Option Ctx)
    (st : BotState Ctx) (s : Song Ctx) (rest : List (Song Ctx))
    (hq : st.search_queue = s :: rest)
    (hctx : (s.ctx.orElse (fun _ => ctx)).isSome = true)
    (hmode : st.music_mode ≠ "loop" ∨ st.current_song = none)
    (hEn : st.music_enabled = true) (hStop : st.stop_after_clear = false)
    (himp : ctx.isSome = true → env.connOk = true) :
    (play_next_song env ctx st).state.search_queue = rest
    ∧ (play_next_song env ctx st).scans = 0 := by
  obtain ⟨eff, heff⟩ := Option.isSome_iff_exists.mp hctx
  have hg : ¬(ctx.isSome = true ∧ env.connOk = false) := by
    rintro ⟨h1, h2⟩
    rw [himp h1] at h2
    exact absurd h2 (by decide)
  have hsel0 : selectNextSong env ctx {st with is_processing_song := false}
      = (.chosen s, {st with is_processing_song := false, search_queue := rest}) :=
    select_pops_front env ctx _ s rest hq hctx hmode
  simp only [hEn, hStop] at hsel0
  unfold play_next_song playNextSongCore
  simp [hEn, hStop, hg, hsel0, heff, play_song_frame]

/-- C1: whenever the mode is not `loop` (or there is no current song) and the
override/search queue is non-empty, selection returns exactly its front
element and removes it, for every content of the playlist queue, the shuffle
pool and the alphabetical library (all of which are left untouched); and a
full invocation of `play_next_song` (past its enabling guards, with an
effective context available) consumes exactly that front element with no
library scan.  The playlist queue is consulted only when the search queue is
empty: `selectFromQueues` reads it only in its `search_queue = []` branch. -/
theorem priority_override_queue (env : ExtEnv) (ctx : Option Ctx)
    (st : BotState Ctx) (s : Song Ctx) (rest : List (Song Ctx))
    (hq : st.search_queue = s :: rest)
    (hctx : (s.ctx.orElse (fun _ => ctx)).isSome = true)
    (hmode : st.music_mode ≠ "loop" ∨ st.current_song = none) :
    selectNextSong env ctx st = (.chosen s, {st with search_queue := rest})
    ∧ (selectNextSong env ctx st).2.active_playlist = st.active_playlist
    ∧ (selectNextSong env ctx st).2.shuffle_queue = st.shuffle_queue
    ∧ (selectNextSong env ctx st).2.all_songs = st.all_songs
    ∧ (st.music_enabled = true → st.stop_after_clear = false →
        (ctx.isSome = true → env.connOk = true) →
        (play_next_song env ctx st).state.search_queue = rest
        ∧ (play_next_song env ctx st).scans = 0) := by
  have hsel := select_pops_front env ctx st s rest hq hctx hmode
  exact ⟨hsel, by rw [hsel], by rw [hsel], by rw [hsel],
    fun hEn hStop himp => play_next_pops_front env ctx st s rest hq hctx hmode hEn hStop himp⟩

/-- Witness for `priority_override_queue`: a non-empty search queue in a
fresh shuffle-mode state. -/
theorem priority_override_queue_witness :
    selectNextSong envOk (some ()) {baseState with search_queue := [songA]}
      = (.chosen songA, {baseState with search_queue := ([] : List (Song Unit))})
    ∧ (play_next_song envOk (some ())
        {baseState with search_queue := [songA]}).state.search_queue = [] := by
  have h := priority_override_queue envOk (some ())
    {baseState with search_queue := [songA]} songA [] rfl rfl (Or.inl (by decide))
  exact ⟨h.1, (h.2.2.2.2 rfl rfl (fun _ => rfl)).1⟩

/-- Witness for `loop_stability` in a concrete looping state, iterated
three times. -/
theorem loop_stability_witness :
    selectNextSong envOk (some ())
        {baseState with music_mode := "loop", current_song := some songA}
      = (.chosen songA,
         {baseState with music_mode := "loop", current_song := some songA})
    ∧ (fun t => (selectNextSong envOk (some ()) t).2)^[3]
        {baseState with music_mode := "loop", current_song := some songA}
      = {baseState with music_mode := "loop", current_song := some songA} := by
  have h := loop_stability envOk
    {baseState with music_mode := "loop", current_song := some songA} () songA
    rfl rfl
  exact ⟨h.1, h.2 3⟩

/-- C8: in alphabetical mode with both queues empty and a non-empty library,
selection chooses the library entry at index `(i+1) mod length` where `i` is
the index of the current song's path, and index 0 when there is no current
song or its path is not found; in particular with library `[a, b, c]` and
current song `c` the next selection is `a`. -/
theorem alphabetical_wrap (env : ExtEnv) (st : BotState Ctx) (c : Ctx)
    (hsq : st.search_queue = []) (hap : st.active_playlist = [])
    (hmode : st.music_mode = "alphabetical") (hne : st.all_songs ≠ []) :
    (selectNextSong env (some c) st
      = (.chosen ⟨st.all_songs.getD (alphaNextIndex st) "",
           get_display_title_from_path env
             (st.all_songs.getD (alphaNextIndex st) ""),
           false, some c⟩, st))
    ∧ (∀ cs i, st.current_song = some cs →
        st.all_songs.findIdx? (· == cs.path) = some i →
        alphaNextIndex st = (i + 1) % st.all_songs.length)
    ∧ (st.current_song = none → alphaNextIndex st = 0)
    ∧ (∀ cs, st.current_song = some cs →
        st.all_songs.findIdx? (· == cs.path) = none → alphaNextIndex st = 0)
    ∧ (selectNextSong envOk (some ()) stABC).1
        = SelectOutcome.chosen ⟨"a", "a", false, some ()⟩ := by
  refine ⟨?_, ?_, ?_, ?_, by decide⟩
  · unfold selectNextSong
    rw [hsq, hap]
    simp only [Option.orElse]
    have hloop : st.music_mode ≠ "loop" := by rw [hmode]; decide
    have hshuf : ¬(st.music_mode = "shuffle") := by rw [hmode]; decide
    have hempty : st.all_songs.isEmpty = false := by
      cases hall : st.all_songs with
      | nil => exact absurd hall hne
      | cons a l => rfl
    cases hcs : st.current_song <;>
      simp [selectFromQueues, hsq, hap, hloop, hshuf, hmode, hempty, hcs]
  · intro cs i hcs hidx
    simp [alphaNextIndex, hcs, hidx]
  · intro h
    simp [alphaNextIndex, h]
  · intro cs hcs hidx
    simp [alphaNextIndex, hcs, hidx]

/-- Witness for `alphabetical_wrap` at the concrete `[a, b, c]` state. -/
theorem alphabetical_wrap_witness :
    selectNextSong envOk (some ()) stABC
      = (.chosen ⟨stABC.all_songs.getD (alphaNextIndex stABC) "",
           get_display_title_from_path envOk
             (stABC.all_songs.getD (alphaNextIndex stABC) ""),
           false, some ()⟩, stABC)
    ∧ alphaNextIndex stABC = (2 + 1) % stABC.all_songs.length := by
  have h := alphabetical_wrap envOk stABC () rfl rfl rfl (by decide)
  exact ⟨h.1, h.2.1 songC 2 rfl (by decide)⟩

/-- C9: with `stop_after_clear` set (and music enabled), the next invocation
of `play_next_song` resets the flag, forces playing/paused to false and
clears the current song, without consuming any queue element, scanning or
starting playback; the helper's confirmed clear is what sets the flag; and
because the flag is reset, a subsequent invocation performs normal selection
(e.g. it pops the front of a non-empty search queue). -/
theorem stop_after_clear_short_circuit (env env2 : ExtEnv)
    (ctx ctx2 : Option Ctx) (st : BotState Ctx)
    (hEn : st.music_enabled = true) (hFlag : st.stop_after_clear = true) :
    play_next_song env ctx st
      = ⟨{st with is_processing_song := false, stop_after_clear := false,
                  is_music_playing := false, is_music_paused := false,
                  current_song := none}, 0, false⟩
    ∧ (play_next_song env ctx st).state.search_queue = st.search_queue
    ∧ (play_next_song env ctx st).state.active_playlist = st.active_playlist
    ∧ (play_next_song env ctx st).state.shuffle_queue = st.shuffle_queue
    ∧ (play_next_song env ctx st).state.stop_after_clear = false
    ∧ (play_next_song env ctx st).startedPlayback = false
    ∧ (confirm_and_clear_music_queue true st).1.stop_after_clear = true
    ∧ (∀ s rest, st.search_queue = s :: rest →
        (s.ctx.orElse (fun _ => ctx2)).isSome = true →
        (ctx2.isSome = true → env2.connOk = true) →
        (play_next_song env2 ctx2
          (play_next_song env ctx st).state).state.search_queue = rest) := by
  have hmain : play_next_song env ctx st
      = ⟨{st with is_processing_song := false, stop_after_clear := false,
                  is_music_playing := false, is_music_paused := false,
                  current_song := none}, 0, false⟩ := by
    unfold play_next_song playNextSongCore
    simp [hEn, hFlag]
  refine ⟨hmain, by rw [hmain], by rw [hmain], by rw [hmain], by rw [hmain],
    by rw [hmain], by simp [confirm_and_clear_music_queue], ?_⟩
  intro s rest hq hctx2 himp2
  rw [hmain]
  exact (play_next_pops_front env2 ctx2
    {st with is_processing_song := false, stop_after_clear := false,
             is_music_playing := false, is_music_paused := false,
             current_song := none} s rest hq hctx2 (Or.inr rfl)
    hEn rfl himp2).1

/-- Witness for `stop_after_clear_short_circuit`: a state with the flag set
and one queued song; the short-circuit leaves the queue alone and the next
invocation pops it. -/
theorem stop_after_clear_short_circuit_witness :
    (play_next_song envOk none
        {baseState with stop_after_clear := true,
                        search_queue := [songA]}).state.search_queue = [songA]
    ∧ (play_next_song envOk none
        {baseState with stop_after_clear := true,
                        search_queue := [songA]}).state.stop_after_clear = false
    ∧ (play_next_song envOk none
        (play_next_song envOk none
          {baseState with stop_after_clear := true,
                          search_queue := [songA]}).state).state.search_queue
      = [] := by
  have h := stop_after_clear_short_circuit envOk envOk none none
    {baseState with stop_after_clear := true, search_queue := [songA]} rfl rfl
  exact ⟨h.2.1, h.2.2.2.2.1, h.2.2.2.2.2.2.2 songA [] rfl rfl (fun hx => rfl)⟩

theorem select_scan_needed (env : ExtEnv) (c : Ctx) (st : BotState Ctx)
    (hsq : st.search_queue = []) (hap : st.active_playlist = [])
    (hMode : st.music_mode = "shuffle") (hsh : st.shuffle_queue = []) :
    selectNextSong env (some c) st = (.scanNeeded, st) := by
  unfold selectNextSong
  rw [hsq, hap]
  simp only [Option.orElse]
  have hloop : ¬(st.music_mode = "loop") := by rw [hMode]; decide
  cases hcs : st.current_song <;>
    simp [selectFromQueues, hsq, hap, hsh, hloop, hMode, hcs]

/-- Amended C3 (the code does not force Idle): with the shuffle pool empty
and the rescanned library also empty, one invocation of `play_next_song`
performs exactly one scan attempt and terminates without starting playback
and without a second scan; the playing/paused/current-song fields are left
exactly as they were (so the state is Idle only if it already was). -/
theorem scan_recursion_bound (env : ExtEnv) (c : Ctx) (st : BotState Ctx)
    (hEn : st.music_enabled = true) (hStop : st.stop_after_clear = false)
    (hConn : env.connOk = true) (hMode : st.music_mode = "shuffle")
    (hsq : st.search_queue = []) (hap : st.active_playlist = [])
    (hsh : st.shuffle_queue = [])
    (hLoc : env.locationValid = true) (hFound : env.scanFound = [])
    (hShuf : env.scanShuffled = []) :
    play_next_song env (some c) st
      = ⟨{st with is_processing_song := false, all_songs := [],
                  shuffle_queue := []}, 1, false⟩
    ∧ (play_next_song env (some c) st).scans = 1
    ∧ (play_next_song env (some c) st).startedPlayback = false
    ∧ (play_next_song env (some c) st).state.is_music_playing
        = st.is_music_playing
    ∧ (play_next_song env (some c) st).state.is_music_paused
        = st.is_music_paused
    ∧ (play_next_song env (some c) st).state.current_song = st.current_song := by
  have hsel0 : selectNextSong env (some c) {st with is_processing_song := false}
      = (.scanNeeded, {st with is_processing_song := false}) :=
    select_scan_needed env c _ hsq hap hMode hsh
  have hscan : scan_and_shuffle_music env {st with is_processing_song := false}
      = {st with is_processing_song := false, all_songs := [],
                 shuffle_queue := []} := by
    unfold scan_and_shuffle_music
    simp [hEn, hLoc, hFound, hShuf, sortStrings]
  have hsel2 : selectNextSong env (some c)
      {st with is_processing_song := false, all_songs := [],
               shuffle_queue := []}
      = (.scanNeeded, {st with is_processing_song := false, all_songs := [],
                               shuffle_queue := []}) :=
    select_scan_needed env c _ hsq hap hMode rfl
  have hmain : play_next_song env (some c) st
      = ⟨{st with is_processing_song := false, all_songs := [],
                  shuffle_queue := []}, 1, false⟩ := by
    simp only [hEn, hStop] at hsel0 hscan hsel2
    unfold play_next_song playNextSongCore
    simp [hEn, hStop, hConn, hsel0, hscan, hsel2]
  exact ⟨hmain, by rw [hmain], by rw [hmain], by rw [hmain], by rw [hmain],
    by rw [hmain]⟩

/-- Counterexample to C3 as stated: a track-end trigger in a playing state
with empty queues, an empty shuffle pool and an empty rescan performs its one
scan attempt but does NOT terminate in the Idle state — the playing flag and
the current song are left as they were. -/
theorem scan_bound_not_idle_counterexample :
    (play_next_song envOk (some ())
        {baseState with is_music_playing := true,
                        current_song := some songA}).scans = 1
    ∧ ¬ IsIdle (play_next_song envOk (some ())
        {baseState with is_music_playing := true,
                        current_song := some songA}).state
    ∧ (play_next_song envOk (some ())
        {baseState with is_music_playing := true,
                        current_song := some songA}).state.is_music_playing
      = true := by
  unfold IsIdle
  refine ⟨?_, ?_, ?_⟩ <;> decide

/-- Witness for `scan_recursion_bound` at a fresh empty state. -/
theorem scan_recursion_bound_witness :
    play_next_song envOk (some ()) baseState
      = ⟨{baseState with is_processing_song := false, all_songs := [],
                         shuffle_queue := []}, 1, false⟩
    ∧ (play_next_song envOk (some ()) baseState).scans = 1 := by
  have h := scan_recursion_bound envOk () baseState rfl rfl rfl rfl rfl rfl rfl
    rfl rfl rfl
  exact ⟨h.1, h.2.1⟩

theorem selectFromQueues_flags (env : ExtEnv) (eff : Ctx) (st : BotState Ctx) :
    (selectFromQueues env eff st).2.is_music_playing = st.is_music_playing
    ∧ (selectFromQueues env eff st).2.is_music_paused = st.is_music_paused := by
  unfold selectFromQueues
  repeat' split
  all_goals simp

theorem selectNextSong_flags (env : ExtEnv) (ctx : Option Ctx)
    (st : BotState Ctx) :
    (selectNextSong env ctx st).2.is_music_paused = st.is_music_paused
    ∧ ((selectNextSong env ctx st).2.is_music_playing = st.is_music_playing
       ∨ (selectNextSong env ctx st).2.is_music_playing = false) := by
  unfold selectNextSong
  simp only
  split
  · simp
  · split
    · split
      · exact ⟨rfl, Or.inl rfl⟩
      · exact ⟨(selectFromQueues_flags env _ st).2,
          Or.inl (selectFromQueues_flags env _ st).1⟩
    · exact ⟨(selectFromQueues_flags env _ st).2,
        Or.inl (selectFromQueues_flags env _ st).1⟩

theorem scan_flags (env : ExtEnv) (st : BotState Ctx) :
    (scan_and_shuffle_music env st).is_music_playing = st.is_music_playing
    ∧ (scan_and_shuffle_music env st).is_music_paused = st.is_music_paused := by
  unfold scan_and_shuffle_music
  repeat' split
  all_goals simp

theorem exclusive_of_select (env : ExtEnv) (ctx : Option Ctx)
    (st : BotState Ctx) (h : PlayPauseExclusive st) :
    PlayPauseExclusive (selectNextSong env ctx st).2 := by
  obtain ⟨hp, hq⟩ := selectNextSong_flags env ctx st
  unfold PlayPauseExclusive at h ⊢
  rcases hq with hq | hq
  · rw [hp, hq]
    exact h
  · exact Or.inl hq

theorem core_state_exclusive (env : ExtEnv) (ctx : Option Ctx)
    (st : BotState Ctx) (h : PlayPauseExclusive st) :
    PlayPauseExclusive (coreState (playNextSongCore env ctx st)) := by
  have hsel : PlayPauseExclusive
      (selectNextSong env ctx {st with is_processing_song := false}).2 :=
    exclusive_of_select env ctx {st with is_processing_song := false} h
  rcases hselEq : selectNextSong env ctx {st with is_processing_song := false}
    with ⟨o, st1⟩
  have hst1 : PlayPauseExclusive st1 := by
    rw [hselEq] at hsel
    exact hsel
  unfold playNextSongCore
  cases hme : st.music_enabled
  · simp [coreState, hme]
    exact h
  · cases hst : st.stop_after_clear
    · by_cases hcc : (ctx.isSome = true ∧ env.connOk = false)
      · simp [coreState, hme, hst, hcc.1, hcc.2]
        exact Or.inl rfl
      · simp only [hme, hst] at hselEq
        cases o with
        | noCtx =>
          simp [coreState, hme, hst, hcc, hselEq]
          exact hst1
        | chosen song =>
          rcases horb : song.ctx.orElse (fun _ => ctx) with _ | eff
          · simp [coreState, hme, hst, hcc, hselEq, horb]
            exact hst1
          · simp [coreState, hme, hst, hcc, hselEq, horb]
            exact play_song_exclusive env _ _ (Or.inr rfl)
        | scanNeeded =>
          simp [coreState, hme, hst, hcc, hselEq]
          exact hst1
        | noSong =>
          simp [coreState, hme, hst, hcc, hselEq]
          exact Or.inl rfl
    · simp [coreState, hme, hst]
      exact Or.inr rfl

theorem play_next_song_exclusive (env : ExtEnv) (ctx : Option Ctx)
    (st : BotState Ctx) (h : PlayPauseExclusive st) :
    PlayPauseExclusive (play_next_song env ctx st).state := by
  have h1 := core_state_exclusive env ctx st h
  unfold play_next_song
  split
  · next st1 b heq =>
    rw [heq] at h1
    exact h1
  · next st1 heq =>
    rw [heq] at h1
    simp only [coreState] at h1
    have h2 : PlayPauseExclusive (scan_and_shuffle_music env st1) := by
      unfold PlayPauseExclusive at h1 ⊢
      rw [(scan_flags env st1).1, (scan_flags env st1).2]
      exact h1
    have h3 := core_state_exclusive env ctx (scan_and_shuffle_music env st1) h2
    cases hq2 : playNextSongCore env ctx (scan_and_shuffle_music env st1) with
    | done st3 b =>
      rw [hq2] at h3
      simp only [coreState] at h3
      simp [hq2]
      exact h3
    | needScan st3 =>
      rw [hq2] at h3
      simp only [coreState] at h3
      simp [hq2]
      exact h3

/-- Amended C2: no invocation of `play_next_song` (under any combination of
external failure outcomes) or of `_play_song` ever leaves `playing` and
`paused` simultaneously true.  (The stronger consistency of the original
claim fails: see the counterexample, where a playback failure leaves
`current_song` non-null with both flags false.) -/
theorem play_pause_exclusive_preserved (env : ExtEnv) (ctx : Option Ctx)
    (st : BotState Ctx) (song : Song Ctx) (h : PlayPauseExclusive st) :
    PlayPauseExclusive (play_next_song env ctx st).state
    ∧ PlayPauseExclusive (play_song env song st).1 :=
  ⟨play_next_song_exclusive env ctx st h, play_song_exclusive env song st h⟩

/-- Witness for `play_pause_exclusive_preserved` at a concrete state and a
failing playback environment. -/
theorem play_pause_exclusive_preserved_witness :
    PlayPauseExclusive (play_next_song envRaise (some ())
      {baseState with search_queue := [songA]}).state
    ∧ PlayPauseExclusive (play_song envRaise songA baseState).1 :=
  play_pause_exclusive_preserved envRaise (some ())
    {baseState with search_queue := [songA]} songA (Or.inl rfl)

/-- Counterexample to C2 as stated: starting from a fully consistent idle
state with one queued song, a source-resolution/playback failure inside
`_play_song` (the `except` branch) leaves `current_song` non-null while both
`playing` and `paused` are false, outside loop mode — the claimed
consistency is violated by this failure path. -/
theorem state_consistency_counterexample :
    FullConsistency {baseState with search_queue := [songA]}
    ∧ ¬ FullConsistency (play_next_song envRaise (some ())
        {baseState with search_queue := [songA]}).state
    ∧ (play_next_song envRaise (some ())
        {baseState with search_queue := [songA]}).state.current_song
      = some songA
    ∧ (play_next_song envRaise (some ())
        {baseState with search_queue := [songA]}).state.is_music_playing
      = false
    ∧ (play_next_song envRaise (some ())
        {baseState with search_queue := [songA]}).state.is_music_paused
      = false
    ∧ (play_next_song envRaise (some ())
        {baseState with search_queue := [songA]}).state.music_mode
      ≠ "loop" := by
  unfold FullConsistency PlayPauseExclusive
  refine ⟨?_, ?_, ?_, ?_, ?_, ?_⟩ <;> decide

theorem clean_song_dict_eq_self (s : Song Ctx) (h : s.ctx = none) :
    clean_song_dict s = s := by
  cases s
  simp only [clean_song_dict]
  simp_all

theorem map_clean_eq_self (l : List (Song Ctx)) (h : ∀ s ∈ l, s.ctx = none) :
    l.map clean_song_dict = l := by
  induction l with
  | nil => rfl
  | cons a l ih =>
    simp only [List.map_cons]
    rw [clean_song_dict_eq_self a (h a (by simp)),
        ih (fun s hs => h s (by simp [hs]))]

theorem omap_clean_eq_self (o : Option (Song Ctx))
    (h : ∀ s, o = some s → s.ctx = none) :
    o.map clean_song_dict = o := by
  cases o with
  | none => rfl
  | some s => simp [clean_song_dict_eq_self s (h s rfl)]

/-- Amended C5: the round trip `from_dict ∘ to_dict` reconstructs
`search_queue`, `active_playlist`, `current_song`, `music_mode`,
`music_volume` and `playlists` whenever the queued songs carry no context;
but `to_dict` strips the `'ctx'` key only from `search_queue`,
`active_playlist` and `current_song` — songs inside saved `playlists` are
serialized as stored, so the no-`'ctx'` guarantee additionally requires the
playlists' songs to be context-free. -/
theorem roundtrip_persistence (cfg : ConfigModel) (st : BotState Ctx)
    (h : QueuedCtxFree st)
    (hpl : ∀ p ∈ st.playlists, ∀ s ∈ p.2, s.ctx = none) :
    (from_dict (to_dict st) cfg).search_queue = st.search_queue
    ∧ (from_dict (to_dict st) cfg).active_playlist = st.active_playlist
    ∧ (from_dict (to_dict st) cfg).current_song = st.current_song
    ∧ (from_dict (to_dict st) cfg).music_mode = st.music_mode
    ∧ (from_dict (to_dict st) cfg).music_volume = st.music_volume
    ∧ (from_dict (to_dict st) cfg).playlists = st.playlists
    ∧ (from_dict (to_dict st) cfg).music_enabled = st.music_enabled
    ∧ ∀ s ∈ savedSongs (to_dict st), s.ctx = none := by
  obtain ⟨h1, h2, h3⟩ := h
  refine ⟨map_clean_eq_self _ h1, map_clean_eq_self _ h2,
    omap_clean_eq_self _ h3, rfl, rfl, rfl, rfl, ?_⟩
  intro s hs
  unfold savedSongs at hs
  rcases List.mem_append.mp hs with hs' | hsY
  · rcases List.mem_append.mp hs' with hs'' | hsX
    · rcases List.mem_append.mp hs'' with hsq | hsa
      · obtain ⟨t, _, rfl⟩ := List.mem_map.mp hsq
        rfl
      · obtain ⟨t, _, rfl⟩ := List.mem_map.mp hsa
        rfl
    · revert hsX
      unfold to_dict
      cases hcs : st.current_song with
      | none => intro hsX; cases hsX
      | some cs =>
        intro hsX
        rcases List.mem_cons.mp hsX with rfl | hsX'
        · rfl
        · cases hsX'
  · obtain ⟨l, hl, hsl⟩ := List.mem_flatten.mp hsY
    obtain ⟨p, hp, rfl⟩ := List.mem_map.mp hl
    exact hpl p hp s hsl

/-- Witness for `roundtrip_persistence` at a concrete populated state with
context-free songs everywhere. -/
theorem roundtrip_persistence_witness :
    (from_dict (to_dict stRound) cfgW).search_queue = [songC]
    ∧ (from_dict (to_dict stRound) cfgW).playlists = [("p", [songC])] := by
  have h := roundtrip_persistence cfgW stRound
    ⟨(by decide), (by decide), fun s hs => (nomatch hs)⟩ (by decide)
  exact ⟨h.1, h.2.2.2.2.2.1⟩

/-- Counterexample to C5 as stated: a state whose queued songs (search queue,
active playlist, current song) carry no context, but one saved playlist song
does; `to_dict` serializes `playlists` as stored, so its output contains a
song dictionary with a `'ctx'` entry. -/
theorem to_dict_ctx_leak_counterexample :
    QueuedCtxFree stLeak
    ∧ ¬(∀ s ∈ savedSongs (to_dict stLeak), s.ctx = none) := by
  constructor
  · exact ⟨fun s hs => (nomatch hs), fun s hs => (nomatch hs),
      fun s hs => (nomatch hs)⟩
  · intro hall
    exact absurd (hall songA (by decide)) (by decide)

theorem dedupFilter_mem (existing : List String) (hits : List (Song Ctx)) :
    ∀ s ∈ (dedupFilter existing hits).1,
      s ∈ hits ∧ s.path ∉ existing ∧ s.path ≠ "" := by
  induction hits generalizing existing with
  | nil =>
    intro s hs
    exact absurd hs (List.not_mem_nil s)
  | cons a rest ih =>
    intro s hs
    simp only [dedupFilter] at hs
    split at hs
    · rename_i hcond
      rcases List.mem_cons.mp hs with rfl | hs'
      · exact ⟨List.mem_cons_self _ _, hcond.2, hcond.1⟩
      · obtain ⟨h1, h2, h3⟩ := ih (a.path :: existing) s hs'
        exact ⟨List.mem_cons_of_mem a h1,
          fun hmem => h2 (List.mem_cons_of_mem _ hmem), h3⟩
    · obtain ⟨h1, h2, h3⟩ := ih existing s hs
      exact ⟨List.mem_cons_of_mem a h1, h2, h3⟩

theorem dedupFilter_paths_nodup (existing : List String)
    (hits : List (Song Ctx)) :
    ((dedupFilter existing hits).1.map Song.path).Nodup := by
  induction hits generalizing existing with
  | nil => simp [dedupFilter]
  | cons a rest ih =>
    simp only [dedupFilter]
    split
    · simp only [List.map_cons, List.nodup_cons]
      refine ⟨?_, ih (a.path :: existing)⟩
      intro hmem
      obtain ⟨t, ht, hpath⟩ := List.mem_map.mp hmem
      exact (dedupFilter_mem (a.path :: existing) rest t ht).2.1
        (by rw [hpath]; exact List.mem_cons_self _ _)
    · exact ih existing

theorem dedupFilter_count (existing : List String) (hits : List (Song Ctx)) :
    (dedupFilter existing hits).1.length + (dedupFilter existing hits).2
      = hits.length := by
  induction hits generalizing existing with
  | nil => simp [dedupFilter]
  | cons a rest ih =>
    simp only [dedupFilter]
    split
    · have := ih (a.path :: existing)
      simp only [List.length_cons]
      omega
    · have := ih existing
      simp only [List.length_cons]
      omega

theorem mem_map_path_comm (l1 l2 : List (Song Ctx)) (p : String) :
    p ∈ (l1 ++ l2).map Song.path ↔ p ∈ (l2 ++ l1).map Song.path := by
  rw [List.map_append, List.map_append, List.mem_append, List.mem_append]
  exact Or.comm

theorem mem_existing_paths (st : BotState Ctx) (p : String) :
    p ∈ existing_paths st ↔
      (p ∈ combinedPaths st
       ∨ ∃ cs, st.current_song = some cs ∧ cs.path = p) := by
  unfold existing_paths combinedPaths
  rw [List.mem_append, mem_map_path_comm]
  apply or_congr Iff.rfl
  cases hcs : st.current_song with
  | none => simp
  | some cs => simp [eq_comm]

theorem extend_queues_consistent (st : BotState Ctx) (ns : List (Song Ctx))
    (h : QueuesConsistent st)
    (hnd : (ns.map Song.path).Nodup)
    (hfresh : ∀ s ∈ ns, s.path ∉ existing_paths st) :
    QueuesConsistent {st with search_queue := st.search_queue ++ ns} := by
  obtain ⟨h1, h2⟩ := h
  unfold combinedPaths at h1
  constructor
  · show (List.map Song.path
      ((st.search_queue ++ ns) ++ st.active_playlist)).Nodup
    have hperm : ((st.search_queue ++ ns) ++ st.active_playlist).Perm
        ((st.search_queue ++ st.active_playlist) ++ ns) := by
      rw [List.append_assoc st.search_queue ns st.active_playlist,
          List.append_assoc st.search_queue st.active_playlist ns]
      exact List.Perm.append_left _ List.perm_append_comm
    rw [List.Perm.nodup_iff (hperm.map Song.path)]
    rw [List.map_append, List.nodup_append]
    refine ⟨h1, hnd, ?_⟩
    intro p hp hpns
    obtain ⟨t, ht, rfl⟩ := List.mem_map.mp hpns
    exact hfresh t ht ((mem_existing_paths st t.path).mpr (Or.inl hp))
  · intro cs hcs
    have hold := h2 cs hcs
    have hcur : cs.path ∈ existing_paths st :=
      (mem_existing_paths st cs.path).mpr (Or.inr ⟨cs, hcs, rfl⟩)
    intro hmem
    have hmem' : cs.path ∈ List.map Song.path
        ((st.search_queue ++ ns) ++ st.active_playlist) := hmem
    unfold combinedPaths at hold
    simp only [List.map_append, List.mem_append] at hold hmem'
    rcases hmem' with (hm | hm) | hm
    · exact hold (Or.inl hm)
    · obtain ⟨t, ht, hpt⟩ := List.mem_map.mp hm
      exact hfresh t ht (by rw [hpt]; exact hcur)
    · exact hold (Or.inr hm)

theorem is_song_in_queue_false (st : BotState Ctx) (p : String)
    (h : is_song_in_queue st p = false) : p ∉ existing_paths st := by
  intro hmem
  unfold is_song_in_queue at h
  rw [Bool.or_eq_false_iff] at h
  obtain ⟨hcur, hany⟩ := h
  rw [List.any_eq_false] at hany
  unfold existing_paths at hmem
  rcases List.mem_append.mp hmem with hm | hm
  · obtain ⟨t, ht, hpt⟩ := List.mem_map.mp hm
    exact (hany t ht) (beq_iff_eq.mpr hpt)
  · cases hcs : st.current_song with
    | none =>
      rw [hcs] at hm
      exact absurd hm (List.not_mem_nil p)
    | some cs =>
      rw [hcs] at hm
      simp only [hcs] at hcur
      rcases List.mem_cons.mp hm with rfl | hm'
      · simp at hcur
      · exact absurd hm' (List.not_mem_nil _)

/-- C4: the three queue-extending operations (the bulk URL/playlist branch of
`msearch`, the single search-result add, and `playlist_load`) all suppress
duplicates: a song whose path equals the current song's path or the path of a
song already in the search queue or active playlist is never added (it is
counted as skipped, and the single add leaves the state unchanged), and each
operation preserves the invariant that the combined search queue and active
playlist contain no two entries with the same path and no entry with the
current song's path. -/
theorem no_duplicate_queuing (st : BotState Ctx) (hits : List (Song Ctx))
    (song : Song Ctx) (name : String) (c : Ctx) (h : QueuesConsistent st) :
    QueuesConsistent (msearch_bulk_add st hits).state
    ∧ (msearch_bulk_add st hits).state.search_queue
        = st.search_queue ++ (dedupFilter (existing_paths st) hits).1
    ∧ (msearch_bulk_add st hits).added + (msearch_bulk_add st hits).skipped
        = hits.length
    ∧ (∀ s ∈ hits, s.path ∈ existing_paths st →
        s ∉ (dedupFilter (existing_paths st) hits).1)
    ∧ (is_song_in_queue st song.path = true →
        msearch_single_add st song = (st, false))
    ∧ QueuesConsistent (msearch_single_add st song).1
    ∧ QueuesConsistent (playlist_load st name c).state
    ∧ (playlist_load st name c).added + (playlist_load st name c).skipped
        = (match lookupPlaylist st.playlists name with
           | some l => l.length
           | none => 0) := by
  refine ⟨?_, rfl, ?_, ?_, ?_, ?_, ?_, ?_⟩
  · exact extend_queues_consistent st _ h (dedupFilter_paths_nodup _ _)
      (fun s hs => (dedupFilter_mem _ _ s hs).2.1)
  · exact dedupFilter_count _ _
  · intro s _ hp hmem
    exact (dedupFilter_mem _ _ s hmem).2.1 hp
  · intro hq
    unfold msearch_single_add
    simp [hq]
  · unfold msearch_single_add
    cases hq : is_song_in_queue st song.path
    · simp only [Bool.false_eq_true, if_false, ite_false]
      refine extend_queues_consistent st [song] h (by simp) ?_
      intro s hs
      rcases List.mem_cons.mp hs with rfl | hs'
      · exact is_song_in_queue_false st s.path hq
      · exact absurd hs' (List.not_mem_nil s)
    · simp only [if_true, ite_true]
      exact h
  · unfold playlist_load
    cases hlk : lookupPlaylist st.playlists name with
    | none => exact h
    | some l =>
      exact extend_queues_consistent st _ h (dedupFilter_paths_nodup _ _)
        (fun s hs => (dedupFilter_mem _ _ s hs).2.1)
  · unfold playlist_load
    cases hlk : lookupPlaylist st.playlists name with
    | none => rfl
    | some l =>
      have := dedupFilter_count (existing_paths st)
        (l.map (fun s => {s with ctx := some c}))
      simpa using this

/-- Witness for `no_duplicate_queuing`: bulk-adding the same song twice into
a fresh state adds it once and skips the duplicate. -/
theorem no_duplicate_queuing_witness :
    QueuesConsistent (msearch_bulk_add baseState [songA, songA]).state
    ∧ (msearch_bulk_add baseState [songA, songA]).added
        + (msearch_bulk_add baseState [songA, songA]).skipped = 2
    ∧ QueuesConsistent (msearch_single_add baseState songA).1 := by
  have h := no_duplicate_queuing baseState [songA, songA] songA "p" ()
    ⟨(by decide), fun cs hcs => (nomatch hcs)⟩
  exact ⟨h.1, h.2.2.1, h.2.2.2.2.2.1⟩

end DiscoBot
